import Mathlib

/-
Verification of the local segmentation / playback engine of the
TTS-Meme-Video-Generator repository.

The definitions below are a shallow embedding of the TypeScript source:
  * src/services/localAnalysisService.ts (text heuristics, panel detection,
    free-TTS fetch),
  * src/components/VideoCanvas.tsx and the VideoCanvas variants in
    src/unnamed/part_004 (render loop and playback loop),
  * src/unnamed/part_003 (segment box editing).
JavaScript numbers are modelled as rationals, JavaScript strings as Lean
strings (lists of characters), and asynchronous effects (fetch, decode)
as explicit outcome records.
-/

namespace MemeReveal

/-! ### JavaScript string primitives

The heuristics in localAnalysisService.ts use `trim`, `split(/\s+/)`,
`replace(/[^a-zA-Z0-9]/g, "")` and a vowel regex.  We model a JS string by
its character list and the `\s` class by `Char.isWhitespace` (the sources
only feed ASCII text to these functions). -/

/-- Character class used for the regex `\s`. -/
def isJsSpace (c : Char) : Bool := c.isWhitespace

/-- Remove leading and trailing whitespace, as `String.prototype.trim`. -/
def jsTrimList (l : List Char) : List Char :=
  ((l.dropWhile isJsSpace).reverse.dropWhile isJsSpace).reverse

/-- The `text.trim()` operation. -/
def jsTrim (s : String) : String := String.mk (jsTrimList s.data)

/-- Character class of the regex `[a-zA-Z0-9]`: `Char.isAlpha` and
`Char.isDigit` test exactly the ASCII ranges `A-Z`, `a-z`, `0-9`. -/
def isAsciiAlnum (c : Char) : Bool := c.isAlpha || c.isDigit

/-- Character class of the regex `[aeiouAEIOU]`. -/
def isVowelChar (c : Char) : Bool :=
  c == 'a' || c == 'e' || c == 'i' || c == 'o' || c == 'u' ||
  c == 'A' || c == 'E' || c == 'I' || c == 'O' || c == 'U'

/-- Number of maximal non-whitespace runs; the flag records whether the
previous character belonged to a token. -/
def countTokensAux : List Char → Bool → ℕ
  | [], _ => 0
  | c :: rest, inTok =>
    if isJsSpace c then countTokensAux rest false
    else (if inTok then 0 else 1) + countTokensAux rest true

/-- The value of `text.trim().split(/\s+/).length` for strings whose trim is
non-empty (the only strings on which the source evaluates it: coherence
guarantees a trimmed length of at least 2 first).  On such strings a
`split(/\s+/)` yields exactly the maximal non-whitespace runs. -/
def jsWordCount (text : String) : ℕ :=
  countTokensAux (jsTrim text).data false

/-! ### Text heuristics (src/services/localAnalysisService.ts, lines 18-46) -/

/-- Translation of `isTextCoherent`.  The first JS guard `!text` (empty
string is falsy) is the disjunct `text = ""`. -/
def isTextCoherent (text : String) : Bool :=
  if text = "" ∨ (jsTrim text).data.length < 2 then false
  else if (((jsTrim text).data.filter isAsciiAlnum).length : ℚ) <
      ((jsTrim text).data.length : ℚ) * 0.5 then false
  else if (jsTrim text).data.any isVowelChar = false ∧ 4 < (jsTrim text).data.length then false
  else true

/-- Translation of `calculateSegmentDuration`.  `Math.ceil` is `Int.ceil`
and JS numbers are rationals. -/
def calculateSegmentDuration (text : String) : ℚ :=
  if text = "" ∨ isTextCoherent text = false then 1
  else
    let wordCount := jsWordCount text
    let readingTime : ℚ := (wordCount : ℚ) * 0.3
    let duration : ℚ := readingTime + 0.3
    max 1 ((⌈duration * 2⌉ : ℚ) / 2)

/-- Modelled from the words of the specification (claim C2): duration is
`1.0` for empty or incoherent text, otherwise
`max(1.0, ceil((wordCount * 0.3 + 0.3) * 2) / 2)`. -/
def durationSpec (text : String) : ℚ :=
  if text = "" ∨ isTextCoherent text = false then 1
  else max 1 ((⌈((jsWordCount text : ℚ) * 0.3 + 0.3) * 2⌉ : ℚ) / 2)

/-- Modelled from the words of the specification (claim C3): the three
coherence rules.  Compared against `isTextCoherent` below. -/
def coherentSpec (text : String) : Prop :=
  2 ≤ (jsTrim text).data.length ∧
  ((jsTrim text).data.length : ℚ) * 0.5 ≤ (((jsTrim text).data.filter isAsciiAlnum).length : ℚ) ∧
  (4 < (jsTrim text).data.length → (jsTrim text).data.any isVowelChar = true)

instance (text : String) : Decidable (coherentSpec text) := by
  unfold coherentSpec; infer_instance

/-- Kernel-computable restatement of `isTextCoherent`: the rational comparison
`alnum < len * 0.5` becomes `2 * alnum < len`.  `isTextCoherent_eq_computable`
below proves both functions equal; concrete strings are evaluated through this
version because rational arithmetic does not reduce in the kernel. -/
def isTextCoherentC (text : String) : Bool :=
  if text = "" ∨ (jsTrim text).data.length < 2 then false
  else if 2 * ((jsTrim text).data.filter isAsciiAlnum).length < (jsTrim text).data.length then false
  else if (jsTrim text).data.any isVowelChar = false ∧ 4 < (jsTrim text).data.length then false
  else true

/-! ### Panel detection (src/services/localAnalysisService.ts, lines 61-163)

An image is its dimensions plus an RGB pixel function; `getImageData` only
feeds `detectPanels` the raw pixel bytes, so this is the whole state the
algorithm reads. -/

/-- One pixel's colour channels (the alpha byte is never read). -/
structure RGB where
  r : ℕ
  g : ℕ
  b : ℕ

/-- A decoded raster image as `detectPanels` consumes it. -/
structure Image where
  width : ℕ
  height : ℕ
  pixel : ℕ → ℕ → RGB

/-- Pixel brightness bound: `const DARK_THRESHOLD = 60`. -/
def DARK_THRESHOLD : ℚ := 60

/-- Density bound: `const LINE_DENSITY_THRESHOLD = 0.6`. -/
def LINE_DENSITY_THRESHOLD : ℚ := 0.6

/-- Minimum panel dimension: `const MIN_PANEL_SIZE = 50`. -/
def MIN_PANEL_SIZE : ℤ := 50

/-- Standard weighted luma, `0.299 * r + 0.587 * g + 0.114 * b`. -/
def luma (p : RGB) : ℚ := 0.299 * p.r + 0.587 * p.g + 0.114 * p.b

/-- Whether the pixel at `(x, y)` counts as dark (`luma < DARK_THRESHOLD`). -/
def isDarkAt (img : Image) (x y : ℕ) : Bool :=
  decide (luma (img.pixel x y) < DARK_THRESHOLD)

/-- Translation of `isRowDivider`: the fraction of dark pixels in row `y`
exceeds the density bound.  (For `width = 0` JavaScript compares `NaN > 0.6`
and rational division gives `0 / 0 = 0 > 0.6`: false either way.) -/
def isRowDivider (img : Image) (y : ℕ) : Bool :=
  let darkCount := ((List.range img.width).filter (fun x => isDarkAt img x y)).length
  decide (LINE_DENSITY_THRESHOLD < (darkCount : ℚ) / (img.width : ℚ))

/-- Translation of `isColDivider`: same test along column `x` restricted to
rows `startY ≤ y < endY`, guarded by `height <= 0`. -/
def isColDivider (img : Image) (x startY endY : ℕ) : Bool :=
  if (endY : ℤ) - (startY : ℤ) ≤ 0 then false
  else
    let darkCount :=
      ((List.range (endY - startY)).filter (fun dy => isDarkAt img x (startY + dy))).length
    decide (LINE_DENSITY_THRESHOLD < (darkCount : ℚ) / (((endY : ℤ) - (startY : ℤ) : ℤ) : ℚ))

/-- Kernel-computable mirror of `isDarkAt` (the luma comparison scaled by
1000); proved equal in `isDarkAt_eq_computable`. -/
def isDarkAtC (img : Image) (x y : ℕ) : Bool :=
  decide (299 * (img.pixel x y).r + 587 * (img.pixel x y).g + 114 * (img.pixel x y).b < 60000)

/-- Kernel-computable mirror of `isRowDivider` (the density comparison scaled
by 5·width); proved equal in `isRowDivider_eq_computable`. -/
def isRowDividerC (img : Image) (y : ℕ) : Bool :=
  decide (3 * img.width < 5 * ((List.range img.width).filter (fun x => isDarkAtC img x y)).length)

/-- Kernel-computable mirror of `isColDivider`; proved equal in
`isColDivider_eq_computable`. -/
def isColDividerC (img : Image) (x startY endY : ℕ) : Bool :=
  if endY ≤ startY then false
  else
    decide (3 * (endY - startY) <
      5 * ((List.range (endY - startY)).filter (fun dy => isDarkAtC img x (startY + dy))).length)

/-- A run of consecutive divider lines: `{y, h}` for rows, `{x, w}` for
columns. -/
structure Cut where
  start : ℕ
  len : ℕ
  deriving DecidableEq

/-- The scan state of the divider loops: `inLine`, `lineStart` and the list
of runs found so far. -/
structure RunState where
  inLine : Bool
  lineStart : ℕ
  cuts : List Cut

/-- One iteration of the divider-run scan in `detectPanels`. -/
def runStep (isLine : ℕ → Bool) (s : RunState) (i : ℕ) : RunState :=
  if isLine i && !s.inLine then { s with inLine := true, lineStart := i }
  else if !(isLine i) && s.inLine then
    { inLine := false, lineStart := s.lineStart, cuts := s.cuts ++ [⟨s.lineStart, i - s.lineStart⟩] }
  else s

/-- The divider-run scan of `detectPanels`: iterate `runStep` over
`0 .. n-1` and close a run still open at the end of the image. -/
def scanRuns (isLine : ℕ → Bool) (n : ℕ) : List Cut :=
  let s := (List.range n).foldl (runStep isLine) ⟨false, 0, []⟩
  if s.inLine then s.cuts ++ [⟨s.lineStart, n - s.lineStart⟩] else s.cuts

/-- The gap loop of `detectPanels`: for each cut, the band from its end to
the next cut's start (or the image edge), kept only when strictly larger
than `MIN_PANEL_SIZE`. -/
def gapSegments : List Cut → ℕ → List Cut
  | [], _ => []
  | [c], total =>
    if MIN_PANEL_SIZE < (total : ℤ) - ((c.start : ℤ) + (c.len : ℤ)) then
      [⟨c.start + c.len, total - (c.start + c.len)⟩]
    else []
  | c :: c2 :: rest, total =>
    (if MIN_PANEL_SIZE < (c2.start : ℤ) - ((c.start : ℤ) + (c.len : ℤ)) then
      [⟨c.start + c.len, c2.start - (c.start + c.len)⟩]
    else []) ++ gapSegments (c2 :: rest) total

/-- Candidate row bands of `detectPanels` (lines 111-125): the leading band
above the first divider run (pushed without any minimum-size check), or the
full image when there is no run, followed by the size-checked gap bands. -/
def rowBands (img : Image) : List Cut :=
  let rowCuts := scanRuns (fun y => isRowDivider img y) img.height
  let lead : List Cut :=
    match rowCuts with
    | [] => [⟨0, img.height⟩]
    | c :: _ => if 0 < c.start then [⟨0, c.start⟩] else []
  lead ++ gapSegments rowCuts img.height

/-- Pixel-space rectangle `{x, y, w, h}`. -/
structure Rect where
  x : ℕ
  y : ℕ
  w : ℕ
  h : ℕ
  deriving DecidableEq

/-- Panels of one row band (lines 129-160): the column scan restricted to the
band, a leading panel (or full-width panel when there is no column run), and
the size-checked gap panels. -/
def panelsInBand (img : Image) (band : Cut) : List Rect :=
  let colCuts := scanRuns (fun x => isColDivider img x band.start (band.start + band.len)) img.width
  let lead : List Rect :=
    match colCuts with
    | [] => [⟨0, band.start, img.width, band.len⟩]
    | c :: _ => if 0 < c.start then [⟨0, band.start, c.start, band.len⟩] else []
  lead ++ (gapSegments colCuts img.width).map (fun g => ⟨g.start, band.start, g.len, band.len⟩)

/-- All panels before the fallback. -/
def detectPanelsRaw (img : Image) : List Rect :=
  (rowBands img).flatMap (panelsInBand img)

/-- Translation of `detectPanels` (line 162): fall back to one full-image
rectangle when no panel was found. -/
def detectPanels (img : Image) : List Rect :=
  if detectPanelsRaw img = [] then [⟨0, 0, img.width, img.height⟩] else detectPanelsRaw img

/-- Kernel-computable mirror of `rowBands`. -/
def rowBandsC (img : Image) : List Cut :=
  let rowCuts := scanRuns (fun y => isRowDividerC img y) img.height
  let lead : List Cut :=
    match rowCuts with
    | [] => [⟨0, img.height⟩]
    | c :: _ => if 0 < c.start then [⟨0, c.start⟩] else []
  lead ++ gapSegments rowCuts img.height

/-- Kernel-computable mirror of `panelsInBand`. -/
def panelsInBandC (img : Image) (band : Cut) : List Rect :=
  let colCuts := scanRuns (fun x => isColDividerC img x band.start (band.start + band.len)) img.width
  let lead : List Rect :=
    match colCuts with
    | [] => [⟨0, band.start, img.width, band.len⟩]
    | c :: _ => if 0 < c.start then [⟨0, band.start, c.start, band.len⟩] else []
  lead ++ (gapSegments colCuts img.width).map (fun g => ⟨g.start, band.start, g.len, band.len⟩)

/-- Kernel-computable mirror of `detectPanelsRaw`. -/
def detectPanelsRawC (img : Image) : List Rect :=
  (rowBandsC img).flatMap (panelsInBandC img)

/-- Kernel-computable mirror of `detectPanels`. -/
def detectPanelsC (img : Image) : List Rect :=
  if detectPanelsRawC img = [] then [⟨0, 0, img.width, img.height⟩] else detectPanelsRawC img

/-! ### Normalized geometry (src/types.ts and the conversions of
src/services/localAnalysisService.ts, lines 210-214 and 264-267) -/

/-- A bounding box in the normalized 0-1000 coordinate space. -/
@[ext]
structure BoundingBox where
  xmin : ℚ
  ymin : ℚ
  xmax : ℚ
  ymax : ℚ
  deriving DecidableEq

/-- A pixel-space rectangle with rational coordinates (JS numbers). -/
@[ext]
structure PixelRect where
  x : ℚ
  y : ℚ
  w : ℚ
  h : ℚ
  deriving DecidableEq

/-- The normalized-to-pixel conversion of `performOCROnBox` (lines 210-214):
`x = xmin/1000*width`, `w = (xmax-xmin)/1000*width`, and likewise for `y`/`h`. -/
def boxToPixelRect (box : BoundingBox) (imgW imgH : ℚ) : PixelRect :=
  ⟨box.xmin / 1000 * imgW, box.ymin / 1000 * imgH,
   (box.xmax - box.xmin) / 1000 * imgW, (box.ymax - box.ymin) / 1000 * imgH⟩

/-- The pixel-to-normalized conversion of `analyzeLocalImage` (lines 264-267):
`xmin = x/width*1000`, `xmax = (x+w)/width*1000`, and likewise for `y`. -/
def pixelRectToBox (r : PixelRect) (imgW imgH : ℚ) : BoundingBox :=
  ⟨r.x / imgW * 1000, r.y / imgH * 1000, (r.x + r.w) / imgW * 1000, (r.y + r.h) / imgH * 1000⟩

/-! ### Segment model and application state (src/types.ts / src/unnamed/part_005) -/

/-- The `audioType` tag: `'pcm'` for the remote narrator, `'mp3'` for the
free-TTS fetch. -/
inductive AudioType where
  | pcm
  | mp3
  deriving DecidableEq

/-- The `MemeSegment` record. -/
structure MemeSegment where
  id : String
  text : String
  box : BoundingBox
  audioBase64 : Option String
  audioType : Option AudioType
  duration : ℚ
  deriving DecidableEq

/-- The `AppState` enumeration.  The source constructor `GENERATING_AUDIO`
is rendered here as `GENERATING_SPEECH`. -/
inductive AppState where
  | IDLE
  | ANALYZING
  | GENERATING_SPEECH
  | READY
  | PLAYING
  | RECORDING
  deriving DecidableEq

/-! ### Playback-mode rendering (drawFrame: src/components/VideoCanvas.tsx,
lines 117-170, and the src/unnamed/part_004 variants, lines 148-197 and
677-721)

A frame is abstracted as the ordered list of draw operations the playback
branch issues: the blurred base layer, one clipped unblurred draw per
revealed segment, and possibly a highlight border.  Geometry (the letterbox
transform) is common to every operation and not recorded. -/

/-- One draw operation of the playback render path. -/
inductive DrawOp where
  | blurredBase
  | reveal (index : ℕ) (box : BoundingBox)
  | highlight (index : ℕ)
  deriving DecidableEq

/-- The `maxIndex` computed by `drawFrame`: the current reveal index while
playing or recording, `-1` when READY, `segments.length - 1` otherwise. -/
def maxIndexFor (state : AppState) (n : ℕ) (currentIndex : ℤ) : ℤ :=
  if state = AppState.PLAYING ∨ state = AppState.RECORDING then currentIndex
  else if state = AppState.READY then -1 else (n : ℤ) - 1

/-- Per-segment draw operations of src/components/VideoCanvas.tsx (lines
132-164): the highlight is drawn whenever `index === currentIndex`, with no
recording check. -/
def segDrawOpsTsx (state : AppState) (n : ℕ) (cur : ℤ) (p : ℕ × MemeSegment) : List DrawOp :=
  if (p.1 : ℤ) ≤ maxIndexFor state n cur ∧ 0 ≤ (p.1 : ℤ) then
    DrawOp.reveal p.1 p.2.box :: (if (p.1 : ℤ) = cur then [DrawOp.highlight p.1] else [])
  else []

/-- Per-segment draw operations of the src/unnamed/part_004 variants (lines
159-192 and 687-716): the highlight additionally requires
`currentState !== AppState.RECORDING`. -/
def segDrawOpsV2 (state : AppState) (n : ℕ) (cur : ℤ) (p : ℕ × MemeSegment) : List DrawOp :=
  if (p.1 : ℤ) ≤ maxIndexFor state n cur ∧ 0 ≤ (p.1 : ℤ) then
    DrawOp.reveal p.1 p.2.box ::
      (if (p.1 : ℤ) = cur ∧ state ≠ AppState.RECORDING then [DrawOp.highlight p.1] else [])
  else []

/-- The playback branch of `drawFrame` in src/components/VideoCanvas.tsx. -/
def drawFramePlaybackTsx (state : AppState) (segs : List MemeSegment) (cur : ℤ) : List DrawOp :=
  DrawOp.blurredBase :: segs.enum.flatMap (segDrawOpsTsx state segs.length cur)

/-- The playback branch of `drawFrame` in the src/unnamed/part_004 variants. -/
def drawFramePlaybackV2 (state : AppState) (segs : List MemeSegment) (cur : ℤ) : List DrawOp :=
  DrawOp.blurredBase :: segs.enum.flatMap (segDrawOpsV2 state segs.length cur)

/-! ### Box editing (handleMouseMove in src/unnamed/part_004, lines 265-305
and 789-829, and updateSegmentBox in src/unnamed/part_003, lines 75-83 and
469-471)

`handleMouseMove` turns the mouse position into normalized deltas
`deltaX`/`deltaY` (arbitrary rationals) and applies the switch below to the
box captured at drag start, then clamps every coordinate to `[0, 1000]`. -/

/-- The drag modes of the switch.  `'NONE'` is excluded: the handler returns
before the switch when no drag is active. -/
inductive DragMode where
  | MOVE
  | RESIZE_TL
  | RESIZE_TR
  | RESIZE_BL
  | RESIZE_BR
  deriving DecidableEq

/-- The clamp `Math.max(0, Math.min(1000, v))`. -/
def clamp1000 (q : ℚ) : ℚ := max 0 (min 1000 q)

/-- The `switch (dragMode)` body: each case reads only the initial box. -/
def dragSwitch (mode : DragMode) (b : BoundingBox) (dx dy : ℚ) : BoundingBox :=
  match mode with
  | DragMode.MOVE =>
    ⟨clamp1000 (b.xmin + dx), clamp1000 (b.ymin + dy),
     clamp1000 (b.xmax + dx), clamp1000 (b.ymax + dy)⟩
  | DragMode.RESIZE_TL =>
    { b with xmin := min (b.xmax - 10) (b.xmin + dx), ymin := min (b.ymax - 10) (b.ymin + dy) }
  | DragMode.RESIZE_TR =>
    { b with xmax := max (b.xmin + 10) (b.xmax + dx), ymin := min (b.ymax - 10) (b.ymin + dy) }
  | DragMode.RESIZE_BL =>
    { b with xmin := min (b.xmax - 10) (b.xmin + dx), ymax := max (b.ymin + 10) (b.ymax + dy) }
  | DragMode.RESIZE_BR =>
    { b with xmax := max (b.xmin + 10) (b.xmax + dx), ymax := max (b.ymin + 10) (b.ymax + dy) }

/-- The full drag update: the switch followed by the final `clampedBox`. -/
def applyDrag (mode : DragMode) (b : BoundingBox) (dx dy : ℚ) : BoundingBox :=
  let nb := dragSwitch mode b dx dy
  ⟨clamp1000 nb.xmin, clamp1000 nb.ymin, clamp1000 nb.xmax, clamp1000 nb.ymax⟩

/-- A `Partial<BoundingBox>` as passed to `updateSegmentBox`. -/
structure BoxPatch where
  xmin : Option ℚ
  ymin : Option ℚ
  xmax : Option ℚ
  ymax : Option ℚ

/-- The spread `{ ...s.box, ...partialBox }` of `updateSegmentBox`: present
fields of the patch override, with no clamping and no ordering check. -/
def mergeBox (b : BoundingBox) (p : BoxPatch) : BoundingBox :=
  ⟨p.xmin.getD b.xmin, p.ymin.getD b.ymin, p.xmax.getD b.xmax, p.ymax.getD b.ymax⟩

/-- Translation of `updateSegmentBox` in src/unnamed/part_003. -/
def updateSegmentBox (segs : List MemeSegment) (id : String) (p : BoxPatch) : List MemeSegment :=
  segs.map (fun s => if s.id ≠ id then s else { s with box := mergeBox s.box p })

/-- The model invariant stated by the specification for every segment box:
strict ordering and the 0-1000 range. -/
abbrev validBox (b : BoundingBox) : Prop :=
  b.xmin < b.xmax ∧ b.ymin < b.ymax ∧
  0 ≤ b.xmin ∧ b.xmax ≤ 1000 ∧ 0 ≤ b.ymin ∧ b.ymax ≤ 1000

/-! ### Playback loop (playSequence: src/unnamed/part_004, lines 863-1006;
the same loop skeleton at src/components/VideoCanvas.tsx, lines 241-285)

The loop reads `isPlayingRef.current` at the top of each iteration and
breaks when it is false; `cont i` is the value observed at the top of
iteration `i`.  Per-segment audio work is caught inside the iteration and
never escapes, so it cannot alter control flow; its result enters the model
as a `SegOutcome`. -/

/-- Outcomes of the asynchronous audio work for one segment. -/
structure SegOutcome where
  decodeOk : Bool
  bufDuration : ℚ
  jitAudio : String
  jitDecodeOk : Bool
  jitDuration : ℚ

/-- The value of the loop variable `audioDuration` after the audio branch of
the src/unnamed/part_004 playback loop (lines 921-975): the decoded buffer's
duration for attached audio, the decoded just-in-time buffer's duration for
the recording text path, and `0` on every failure and on the browser-TTS
preview path. -/
def audioDurationOf (isRecording : Bool) (seg : MemeSegment) (o : SegOutcome) : ℚ :=
  match seg.audioBase64 with
  | some _ => if o.decodeOk then o.bufDuration else 0
  | none =>
    if seg.text ≠ "" then
      if isRecording then
        if o.jitAudio ≠ "" ∧ o.jitDecodeOk then o.jitDuration else 0
      else 0
    else 0

/-- The JavaScript `seg.duration || 0` (zero is falsy). -/
def jsOr0 (q : ℚ) : ℚ := if q = 0 then 0 else q

/-- The timer wait of one iteration (src/unnamed/part_004, lines 977-990),
in milliseconds: `waitTime` when an audio buffer played, otherwise a fixed
`500` in preview and `waitTime` while recording.  (The 200 ms inter-segment
pause of line 992 is separate.) -/
def segmentWaitMs (isRecording : Bool) (seg : MemeSegment) (o : SegOutcome) : ℚ :=
  let audioDuration := audioDurationOf isRecording seg o
  let waitTime := max audioDuration (jsOr0 seg.duration) * 1000
  if 0 < audioDuration then waitTime
  else if isRecording = false then 500 else waitTime

/-- Outcomes of the attached-audio work for one segment in the
src/components/VideoCanvas.tsx playback loop: whether `decodePCM` and
playback set-up succeed, the decoded buffer's duration (seconds), and the
time in milliseconds at which `source.onended` fires. -/
structure TsxSegOutcome where
  decodeOk : Bool
  bufDuration : ℚ
  endedAtMs : ℚ

/-- The wait of one iteration of the src/components/VideoCanvas.tsx playback
loop (lines 248-281), in milliseconds.  On a successful decode the awaited
promise resolves at `source.onended` or at the safety timeout
`buffer.duration * 1000 + 500`, whichever comes first; on a decode or
playback error the `catch` waits a fixed 1000 ms; with no attached audio
the wait is a fixed 2000 ms.  None of these waits reads the recording flag
(line 260 uses it only to route audio), which the unused parameter records;
the 500 ms inter-segment pause of line 284 is separate. -/
def segmentWaitMsTsx (_isRecording : Bool) (seg : MemeSegment) (o : TsxSegOutcome) : ℚ :=
  match seg.audioBase64 with
  | some _ =>
    if o.decodeOk then min o.endedAtMs (o.bufDuration * 1000 + 500)
    else 1000
  | none => 2000

/-- Reveal indices written by a run of the playback loop: starting at
iteration `i` with `fuel` segments left, collect `i` while the cancellation
flag read at the top of the iteration is true. -/
def playFrom (cont : ℕ → Bool) : ℕ → ℕ → List ℕ
  | 0, _ => []
  | fuel + 1, i => if cont i then i :: playFrom cont fuel (i + 1) else []

/-- Number of iterations the loop completes before stopping. -/
def stopFrom (cont : ℕ → Bool) : ℕ → ℕ → ℕ
  | 0, _ => 0
  | fuel + 1, i => if cont i then stopFrom cont fuel (i + 1) + 1 else 0

/-- The reveal-index trace of one `playSequence` run over `n` segments. -/
def playIndices (cont : ℕ → Bool) (n : ℕ) : List ℕ := playFrom cont n 0

/-- The iteration at which the run stops (`n` when never cancelled). -/
def stopIndex (cont : ℕ → Bool) (n : ℕ) : ℕ := stopFrom cont n 0

/-- The common loop skeleton of both playSequence variants, logging for each
completed iteration the reveal index set and the wait spent on that
segment. -/
def playLogWith (cont : ℕ → Bool) (wait : ℕ → MemeSegment → ℚ) :
    List MemeSegment → ℕ → List (ℕ × ℚ)
  | [], _ => []
  | seg :: rest, i =>
    if cont i then (i, wait i seg) :: playLogWith cont wait rest (i + 1)
    else []

/-- The full run log of the src/unnamed/part_004 playback loop. -/
def playLog (cont : ℕ → Bool) (isRecording : Bool) (out : ℕ → SegOutcome)
    (segs : List MemeSegment) (i : ℕ) : List (ℕ × ℚ) :=
  playLogWith cont (fun j seg => segmentWaitMs isRecording seg (out j)) segs i

/-- The full run log of the src/components/VideoCanvas.tsx playback loop. -/
def playLogTsx (cont : ℕ → Bool) (isRecording : Bool) (out : ℕ → TsxSegOutcome)
    (segs : List MemeSegment) (i : ℕ) : List (ℕ × ℚ) :=
  playLogWith cont (fun j seg => segmentWaitMsTsx isRecording seg (out j)) segs i

/-! ### Free-TTS fetch (src/services/localAnalysisService.ts, lines 166-201) -/

/-- Keep-set of `cleanTextForTTS`: the regex `[^\w\s.,?!'-]` removes
everything outside word characters, whitespace and the listed punctuation
(the apostrophe is written by its code point). -/
def keepTTSChar (c : Char) : Bool :=
  isAsciiAlnum c || c == '_' || isJsSpace c ||
  c == '.' || c == ',' || c == '?' || c == '!' || c.toNat == 39 || c == '-'

/-- The `replace(/\s+/g, ' ')` pass: each maximal whitespace run becomes a
single space; the flag records whether the previous kept character closed a
whitespace run. -/
def collapseWsAux : List Char → Bool → List Char
  | [], _ => []
  | c :: rest, prevSpace =>
    if isJsSpace c then
      (if prevSpace then [] else [' ']) ++ collapseWsAux rest true
    else c :: collapseWsAux rest false

/-- Translation of `cleanTextForTTS`: collapse whitespace, strip characters
outside the keep-set, trim. -/
def cleanTextForTTS (text : String) : String :=
  String.mk (jsTrimList ((collapseWsAux text.data false).filter keepTTSChar))

/-- Outcomes of the external effects inside `fetchFreeTTS`: whether `fetch`
rejects, `response.ok`, the blob's byte size, and the result of
`blobToBase64` (`none` when the conversion rejects). -/
structure TTSEnv where
  fetchThrows : Bool
  respOk : Bool
  blobSize : ℕ
  b64Result : Option String

/-- The `try` block of `fetchFreeTTS`: each failing step throws. -/
def fetchFreeTTSBody (env : TTSEnv) : Except Unit String :=
  if env.fetchThrows then Except.error ()
  else if env.respOk = false then Except.error ()
  else if env.blobSize < 100 then Except.error ()
  else
    match env.b64Result with
    | none => Except.error ()
    | some s => Except.ok s

/-- Translation of `fetchFreeTTS`: early empty returns for empty input and
empty sanitized text, and a `catch` that turns every failure into `""`.  The
returned `String` models a promise that always resolves. -/
def fetchFreeTTS (env : TTSEnv) (text : String) : String :=
  if text = "" then ""
  else if (cleanTextForTTS text).data.length = 0 then ""
  else
    match fetchFreeTTSBody env with
    | Except.ok s => s
    | Except.error _ => ""

/-! ### Concrete inputs used by witnesses and counterexamples -/

/-- A uniformly white 2x2 image: no divider anywhere. -/
def imgPlain : Image := ⟨2, 2, fun _ _ => ⟨255, 255, 255⟩⟩

/-- A uniformly black 1x1 image: the whole image is one divider run, every
band is dropped, and the fallback fires. -/
def imgAllDark : Image := ⟨1, 1, fun _ _ => ⟨0, 0, 0⟩⟩

/-- A 1x3 image whose middle row is black: the band above the first divider
run has height 1, far below `MIN_PANEL_SIZE`. -/
def imgThinTop : Image := ⟨1, 3, fun _ y => if y = 1 then ⟨0, 0, 0⟩ else ⟨255, 255, 255⟩⟩

/-- A segment with attached audio and a nominal duration of 2 seconds. -/
def segAudioFail : MemeSegment :=
  { id := "seg-a", text := "", box := ⟨0, 0, 100, 100⟩,
    audioBase64 := some ("QUFB"), audioType := some AudioType.pcm, duration := 2 }

/-- An outcome in which decoding the attached audio fails. -/
def outcomeDecodeFail : SegOutcome :=
  { decodeOk := false, bufDuration := 0, jitAudio := "", jitDecodeOk := false, jitDuration := 0 }

/-- The same decode failure for the src/components/VideoCanvas.tsx loop. -/
def tsxOutcomeDecodeFail : TsxSegOutcome :=
  { decodeOk := false, bufDuration := 0, endedAtMs := 0 }

/-- A plain text-only segment. -/
def segText : MemeSegment :=
  { id := "seg-b", text := "hello", box := ⟨0, 0, 500, 500⟩,
    audioBase64 := none, audioType := none, duration := 1 }

/-- A valid box about to be edited. -/
def boxEdited : BoundingBox := ⟨100, 100, 900, 900⟩

/-- A per-coordinate edit that moves only `xmin`, to 950, inside `[0, 1000]`. -/
def patchXmin950 : BoxPatch := ⟨some 950, none, none, none⟩

/-- An environment in which the network fetch rejects. -/
def envFetchThrows : TTSEnv :=
  { fetchThrows := true, respOk := true, blobSize := 4096, b64Result := some ("QUFB") }

/-! ## Theorems

First the equalities between the source-faithful rational definitions and
their kernel-computable mirrors, then one theorem per claim. -/

theorem luma_lt_iff (r g b : ℕ) :
    (0.299 * (r : ℚ) + 0.587 * (g : ℚ) + 0.114 * (b : ℚ) < 60) ↔
      299 * r + 587 * g + 114 * b < 60000 := by
  constructor
  · intro h
    have h2 : ((299 * r + 587 * g + 114 * b : ℕ) : ℚ) < ((60000 : ℕ) : ℚ) := by
      push_cast
      nlinarith [h]
    exact_mod_cast h2
  · intro h
    have h2 : ((299 * r + 587 * g + 114 * b : ℕ) : ℚ) < ((60000 : ℕ) : ℚ) := by exact_mod_cast h
    push_cast at h2
    nlinarith [h2]

theorem isDarkAt_eq_computable (img : Image) (x y : ℕ) :
    isDarkAt img x y = isDarkAtC img x y := by
  unfold isDarkAt isDarkAtC luma DARK_THRESHOLD
  rw [decide_eq_decide]
  exact luma_lt_iff _ _ _

theorem density_gt_iff (d w : ℕ) (hdw : d ≤ w) :
    (0.6 < (d : ℚ) / (w : ℚ)) ↔ 3 * w < 5 * d := by
  rcases Nat.eq_zero_or_pos w with hw | hw
  · subst hw
    have hd : d = 0 := Nat.le_zero.mp hdw
    subst hd
    norm_num
  · have hw' : (0 : ℚ) < (w : ℚ) := by exact_mod_cast hw
    rw [lt_div_iff₀ hw']
    constructor
    · intro h
      have h2 : ((3 * w : ℕ) : ℚ) < ((5 * d : ℕ) : ℚ) := by push_cast; nlinarith [h]
      exact_mod_cast h2
    · intro h
      have h2 : ((3 * w : ℕ) : ℚ) < ((5 * d : ℕ) : ℚ) := by exact_mod_cast h
      push_cast at h2
      nlinarith [h2]

theorem isRowDivider_eq_computable (img : Image) (y : ℕ) :
    isRowDivider img y = isRowDividerC img y := by
  unfold isRowDivider isRowDividerC LINE_DENSITY_THRESHOLD
  have hfun : (fun x => isDarkAt img x y) = (fun x => isDarkAtC img x y) :=
    funext fun x => isDarkAt_eq_computable img x y
  rw [hfun, decide_eq_decide]
  exact density_gt_iff _ _ (le_trans (List.length_filter_le _ _) (by simp))

theorem isColDivider_eq_computable (img : Image) (x startY endY : ℕ) :
    isColDivider img x startY endY = isColDividerC img x startY endY := by
  unfold isColDivider isColDividerC LINE_DENSITY_THRESHOLD
  have hfun : (fun dy => isDarkAt img x (startY + dy)) = (fun dy => isDarkAtC img x (startY + dy)) :=
    funext fun dy => isDarkAt_eq_computable img x (startY + dy)
  by_cases hle : endY ≤ startY
  · rw [if_pos (by omega), if_pos hle]
  · rw [if_neg (by omega), if_neg hle, hfun, decide_eq_decide]
    have hcast : (((endY : ℤ) - (startY : ℤ) : ℤ) : ℚ) = ((endY - startY : ℕ) : ℚ) := by
      push_cast [Nat.cast_sub (by omega : startY ≤ endY)]
      ring
    rw [hcast]
    exact density_gt_iff _ _ (le_trans (List.length_filter_le _ _) (by simp))

theorem rowBands_eq_computable (img : Image) : rowBands img = rowBandsC img := by
  unfold rowBands rowBandsC
  rw [funext (isRowDivider_eq_computable img)]

theorem panelsInBand_eq_computable (img : Image) (band : Cut) :
    panelsInBand img band = panelsInBandC img band := by
  unfold panelsInBand panelsInBandC
  rw [funext fun x => isColDivider_eq_computable img x band.start (band.start + band.len)]

theorem detectPanelsRaw_eq_computable (img : Image) :
    detectPanelsRaw img = detectPanelsRawC img := by
  unfold detectPanelsRaw detectPanelsRawC
  rw [rowBands_eq_computable, funext (panelsInBand_eq_computable img)]

theorem detectPanels_eq_computable (img : Image) : detectPanels img = detectPanelsC img := by
  unfold detectPanels detectPanelsC
  rw [detectPanelsRaw_eq_computable]

theorem alnum_ratio_iff (a l : ℕ) : ((a : ℚ) < (l : ℚ) * 0.5) ↔ 2 * a < l := by
  constructor
  · intro h
    have h2 : ((2 * a : ℕ) : ℚ) < ((l : ℕ) : ℚ) := by push_cast; nlinarith [h]
    exact_mod_cast h2
  · intro h
    have h2 : ((2 * a : ℕ) : ℚ) < ((l : ℕ) : ℚ) := by exact_mod_cast h
    push_cast at h2
    nlinarith [h2]

theorem isTextCoherent_eq_computable (t : String) : isTextCoherent t = isTextCoherentC t := by
  unfold isTextCoherent isTextCoherentC
  simp only [alnum_ratio_iff]

theorem foldl_runStep_const (isLine : ℕ → Bool) (l : List ℕ) (s : RunState)
    (hs : s.inLine = false) (h : ∀ i ∈ l, isLine i = false) :
    l.foldl (runStep isLine) s = s := by
  induction l with
  | nil => rfl
  | cons a l ih =>
    rw [List.foldl_cons]
    have hstep : runStep isLine s a = s := by
      unfold runStep
      rw [h a (List.mem_cons_self a l), hs]
      simp
    rw [hstep]
    exact ih (fun i hi => h i (List.mem_cons_of_mem a hi))

theorem scanRuns_eq_nil (isLine : ℕ → Bool) (n : ℕ) (h : ∀ i < n, isLine i = false) :
    scanRuns isLine n = [] := by
  unfold scanRuns
  rw [foldl_runStep_const isLine _ _ rfl (fun i hi => h i (List.mem_range.mp hi))]
  rfl

/-- Claim C1: with no horizontal divider row and no vertical divider column
in the single full-height band, `detectPanels` returns exactly the one
full-image rectangle; and whenever the detection pass yields zero panels,
the fallback returns that same full-image rectangle. -/
theorem C1_full_image_or_fallback (img : Image) :
    ((∀ y < img.height, isRowDivider img y = false) →
      (∀ x < img.width, isColDivider img x 0 img.height = false) →
      detectPanels img = [⟨0, 0, img.width, img.height⟩]) ∧
    (detectPanelsRaw img = [] → detectPanels img = [⟨0, 0, img.width, img.height⟩]) := by
  constructor
  · intro hrow hcol
    have hcuts : scanRuns (fun y => isRowDivider img y) img.height = [] :=
      scanRuns_eq_nil _ _ hrow
    have hrows : rowBands img = [⟨0, img.height⟩] := by
      unfold rowBands
      rw [hcuts]
      rfl
    have hccuts : scanRuns (fun x => isColDivider img x 0 (0 + img.height)) img.width = [] :=
      scanRuns_eq_nil _ _ (fun i hi => by rw [Nat.zero_add]; exact hcol i hi)
    have hpan : panelsInBand img ⟨0, img.height⟩ = [⟨0, 0, img.width, img.height⟩] := by
      unfold panelsInBand
      rw [hccuts]
      rfl
    unfold detectPanels detectPanelsRaw
    rw [hrows]
    simp only [List.flatMap_cons, List.flatMap_nil, List.append_nil, hpan]
    rfl
  · intro h
    unfold detectPanels
    rw [if_pos h]

/-- Claim C1 witness: on a plain white 2x2 image the hypotheses hold and one
full-image panel is returned; on an all-dark 1x1 image the raw pass is empty
and the fallback returns the full image. -/
theorem C1_full_image_or_fallback_witness :
    detectPanels imgPlain = [⟨0, 0, 2, 2⟩] ∧ detectPanels imgAllDark = [⟨0, 0, 1, 1⟩] := by
  constructor
  · have hrow : ∀ y < 2, isRowDividerC imgPlain y = false := by decide
    have hcol : ∀ x < 2, isColDividerC imgPlain x 0 2 = false := by decide
    exact (C1_full_image_or_fallback imgPlain).1
      (fun y hy => (isRowDivider_eq_computable imgPlain y).trans (hrow y hy))
      (fun x hx => (isColDivider_eq_computable imgPlain x 0 2).trans (hcol x hx))
  · exact (C1_full_image_or_fallback imgAllDark).2
      (by rw [detectPanelsRaw_eq_computable]; decide)

theorem gapSegments_minsize (cuts : List Cut) (total : ℕ) :
    ∀ g ∈ gapSegments cuts total, MIN_PANEL_SIZE < (g.len : ℤ) := by
  induction cuts with
  | nil => intro g hg; simp [gapSegments] at hg
  | cons c rest ih =>
    intro g hg
    cases rest with
    | nil =>
      simp only [gapSegments] at hg
      split_ifs at hg with h
      · simp only [List.mem_singleton] at hg
        subst hg
        unfold MIN_PANEL_SIZE at h ⊢
        dsimp only
        omega
      · simp at hg
    | cons c2 rest2 =>
      simp only [gapSegments, List.mem_append] at hg
      rcases hg with hg | hg
      · split_ifs at hg with h
        · simp only [List.mem_singleton] at hg
          subst hg
          unfold MIN_PANEL_SIZE at h ⊢
          dsimp only
          omega
        · simp at hg
      · exact ih g hg

theorem rowBands_start_or_size (img : Image) :
    ∀ b ∈ rowBands img, b.start = 0 ∨ MIN_PANEL_SIZE < (b.len : ℤ) := by
  intro b hb
  unfold rowBands at hb
  rw [List.mem_append] at hb
  rcases hb with hb | hb
  · left
    rcases hcc : scanRuns (fun y => isRowDivider img y) img.height with _ | ⟨c, rest⟩ <;>
      rw [hcc] at hb <;> dsimp only at hb
    · simp only [List.mem_singleton] at hb
      rw [hb]
    · split_ifs at hb with h
      · simp only [List.mem_singleton] at hb
        rw [hb]
      · simp at hb
  · right
    exact gapSegments_minsize _ _ b hb

theorem panelsInBand_row_extent (img : Image) (band : Cut) :
    ∀ p ∈ panelsInBand img band, p.y = band.start ∧ p.h = band.len := by
  intro p hp
  unfold panelsInBand at hp
  rw [List.mem_append] at hp
  rcases hp with hp | hp
  · rcases hcc : scanRuns (fun x => isColDivider img x band.start (band.start + band.len))
        img.width with _ | ⟨c, rest⟩ <;> rw [hcc] at hp <;> dsimp only at hp
    · simp only [List.mem_singleton] at hp
      rw [hp]
      exact ⟨rfl, rfl⟩
    · split_ifs at hp with h
      · simp only [List.mem_singleton] at hp
        rw [hp]
        exact ⟨rfl, rfl⟩
      · simp at hp
  · rw [List.mem_map] at hp
    obtain ⟨g, -, hg⟩ := hp
    rw [← hg]
    exact ⟨rfl, rfl⟩

/-- Claim C6, amended: gap bands below `MIN_PANEL_SIZE` are indeed discarded,
but the band above the first divider run is kept with no size check, so what
holds of `detectPanels` output is: every panel either touches the top edge
(`y = 0`) or has height strictly above `MIN_PANEL_SIZE`. -/
theorem C6_bands_amended (img : Image) :
    ∀ p ∈ detectPanels img, p.y = 0 ∨ MIN_PANEL_SIZE < (p.h : ℤ) := by
  intro p hp
  unfold detectPanels at hp
  split_ifs at hp with hraw
  · simp only [List.mem_singleton] at hp
    rw [hp]
    left
    rfl
  · unfold detectPanelsRaw at hp
    rw [List.mem_flatMap] at hp
    obtain ⟨band, hband, hp⟩ := hp
    obtain ⟨hy, hh⟩ := panelsInBand_row_extent img band p hp
    rcases rowBands_start_or_size img band hband with h0 | hsz
    · left
      rw [hy, h0]
    · right
      rw [hh]
      exact hsz

/-- Claim C6 witness: the amended statement evaluated on the 1x3 image with a
thin top band. -/
theorem C6_bands_amended_witness :
    (Rect.mk 0 0 1 1).y = 0 ∨ MIN_PANEL_SIZE < ((Rect.mk 0 0 1 1).h : ℤ) :=
  C6_bands_amended imgThinTop (Rect.mk 0 0 1 1)
    (by rw [detectPanels_eq_computable]; decide)

/-- Claim C6 counterexample: on the 1x3 image whose middle row is dark, the
band above the first divider run has height 1 (at most `MIN_PANEL_SIZE`) yet
is not discarded: the returned panel lies inside it. -/
theorem C6_counterexample :
    rowBands imgThinTop = [⟨0, 1⟩] ∧ (1 : ℤ) ≤ MIN_PANEL_SIZE ∧
    detectPanels imgThinTop = [⟨0, 0, 1, 1⟩] := by
  refine ⟨?_, by decide, ?_⟩
  · rw [rowBands_eq_computable]
    decide
  · rw [detectPanels_eq_computable]
    decide

theorem jsTrim_of_empty : (jsTrim ("")).data = [] := rfl

/-- Claim C3: `isTextCoherent` returns true exactly when the three rules
hold — trimmed length at least 2, alphanumeric count at least half the
trimmed length, and a vowel whenever the trimmed length exceeds 4 — and in
particular rejects "xkqjrst" and "!!??" while accepting "Hello world". -/
theorem C3_coherence_rules :
    (∀ t : String, isTextCoherent t = true ↔ coherentSpec t) ∧
    isTextCoherent ("xkqjrst") = false ∧
    isTextCoherent ("Hello world") = true ∧
    isTextCoherent ("!!??") = false := by
  refine ⟨fun t => ?_,
    by rw [isTextCoherent_eq_computable]; decide,
    by rw [isTextCoherent_eq_computable]; decide,
    by rw [isTextCoherent_eq_computable]; decide⟩
  unfold isTextCoherent coherentSpec
  split_ifs with h1 h2 h3
  · simp only [Bool.false_eq_true, false_iff]
    rintro ⟨hlen, -, -⟩
    rcases h1 with h1 | h1
    · rw [h1] at hlen
      rw [jsTrim_of_empty] at hlen
      simp at hlen
    · omega
  · simp only [Bool.false_eq_true, false_iff]
    rintro ⟨-, hratio, -⟩
    exact absurd hratio (not_le.mpr h2)
  · simp only [Bool.false_eq_true, false_iff]
    rintro ⟨-, -, hvowel⟩
    rw [hvowel h3.2] at h3
    exact absurd h3.1 (by simp)
  · simp only [true_iff]
    push_neg at h1
    refine ⟨h1.2, not_lt.mp h2, fun hlen => ?_⟩
    by_contra hv
    exact h3 ⟨by simpa using hv, hlen⟩

theorem ceil_formula_example : (⌈((3 : ℚ) * 0.3 + 0.3) * 2⌉ : ℤ) = 3 := by
  rw [Int.ceil_eq_iff]
  norm_num

/-- Claim C2: `calculateSegmentDuration` is 1.0 for empty or incoherent
input and otherwise `max(1.0, ceil((wordCount * 0.3 + 0.3) * 2) / 2)`; every
result is a multiple of 0.5 and at least 1.0, and "one two three" yields
1.5. -/
theorem C2_duration_formula :
    (∀ t : String, calculateSegmentDuration t = durationSpec t) ∧
    (∀ t : String, (∃ k : ℤ, calculateSegmentDuration t = (k : ℚ) / 2) ∧
      1 ≤ calculateSegmentDuration t) ∧
    calculateSegmentDuration ("one two three") = 3 / 2 := by
  refine ⟨fun t => rfl, fun t => ?_, ?_⟩
  · unfold calculateSegmentDuration
    split_ifs with h
    · exact ⟨⟨2, by norm_num⟩, le_refl 1⟩
    · constructor
      · rcases le_total ((⌈((jsWordCount t : ℚ) * 0.3 + 0.3) * 2⌉ : ℚ) / 2) 1 with hle | hle
        · exact ⟨2, by rw [max_eq_left hle]; norm_num⟩
        · exact ⟨⌈((jsWordCount t : ℚ) * 0.3 + 0.3) * 2⌉, by rw [max_eq_right hle]⟩
      · exact le_max_left 1 _
  · have hcoh : isTextCoherent ("one two three") = true := by
      rw [isTextCoherent_eq_computable]; decide
    have hwc : jsWordCount ("one two three") = 3 := by decide
    unfold calculateSegmentDuration
    rw [if_neg (by simp [hcoh]), hwc]
    show (1 : ℚ) ⊔ (⌈(((3 : ℕ) : ℚ) * 0.3 + 0.3) * 2⌉ : ℚ) / 2 = 3 / 2
    rw [show (((3 : ℕ) : ℚ) * 0.3 + 0.3) * 2 = ((3 : ℚ) * 0.3 + 0.3) * 2 by push_cast; ring,
      ceil_formula_example]
    norm_num

/-- Claim C7: converting a normalized box to pixels as `performOCROnBox`
does and back to normalized coordinates as `analyzeLocalImage` does is the
identity (exactly, over the rationals) for boxes in `[0, 1000]^4` and
positive image dimensions. -/
theorem C7_roundtrip (box : BoundingBox) (imgW imgH : ℚ)
    (hW : 0 < imgW) (hH : 0 < imgH)
    (_hx0 : 0 ≤ box.xmin) (_hx1 : box.xmax ≤ 1000)
    (_hy0 : 0 ≤ box.ymin) (_hy1 : box.ymax ≤ 1000) :
    pixelRectToBox (boxToPixelRect box imgW imgH) imgW imgH = box := by
  have hW' : imgW ≠ 0 := ne_of_gt hW
  have hH' : imgH ≠ 0 := ne_of_gt hH
  unfold pixelRectToBox boxToPixelRect
  ext <;> dsimp only <;> field_simp <;> ring

/-- Claim C7 witness: the round trip at a concrete box and 640x480 image. -/
theorem C7_roundtrip_witness :
    pixelRectToBox (boxToPixelRect ⟨100, 200, 300, 400⟩ 640 480) 640 480 =
      (⟨100, 200, 300, 400⟩ : BoundingBox) :=
  C7_roundtrip ⟨100, 200, 300, 400⟩ 640 480 (by norm_num) (by norm_num)
    (by norm_num) (by norm_num) (by norm_num) (by norm_num)

/-- Claim C8, amended: in the part_004 renderers a highlight operation is
only emitted for the segment at the current reveal index and never while
recording, and every segment with index between 0 and `maxIndex` gets its
clipped unblurred reveal draw in both renderers; but in
src/components/VideoCanvas.tsx the highlight is also emitted while
recording (see the counterexample). -/
theorem C8_highlight_amended :
    (∀ (state : AppState) (segs : List MemeSegment) (cur : ℤ) (i : ℕ),
      DrawOp.highlight i ∈ drawFramePlaybackV2 state segs cur →
        (i : ℤ) = cur ∧ state ≠ AppState.RECORDING) ∧
    (∀ (state : AppState) (segs : List MemeSegment) (cur : ℤ) (p : ℕ × MemeSegment),
      p ∈ segs.enum → (p.1 : ℤ) ≤ maxIndexFor state segs.length cur →
        DrawOp.reveal p.1 p.2.box ∈ drawFramePlaybackV2 state segs cur ∧
        DrawOp.reveal p.1 p.2.box ∈ drawFramePlaybackTsx state segs cur) := by
  constructor
  · intro state segs cur i hmem
    unfold drawFramePlaybackV2 at hmem
    rw [List.mem_cons] at hmem
    rcases hmem with hmem | hmem
    · exact absurd hmem (by simp)
    · rw [List.mem_flatMap] at hmem
      obtain ⟨p, -, hmem⟩ := hmem
      unfold segDrawOpsV2 at hmem
      split_ifs at hmem with hvis hcur
      · rw [List.mem_cons] at hmem
        rcases hmem with hmem | hmem
        · exact absurd hmem (by simp)
        · simp only [List.mem_singleton, DrawOp.highlight.injEq] at hmem
          rw [hmem]
          exact hcur
      · rw [List.mem_cons] at hmem
        rcases hmem with hmem | hmem
        · exact absurd hmem (by simp)
        · simp at hmem
      · simp at hmem
  · intro state segs cur p hp hle
    constructor
    · unfold drawFramePlaybackV2
      rw [List.mem_cons]
      right
      rw [List.mem_flatMap]
      refine ⟨p, hp, ?_⟩
      unfold segDrawOpsV2
      rw [if_pos ⟨hle, Int.ofNat_nonneg p.1⟩]
      exact List.mem_cons_self _ _
    · unfold drawFramePlaybackTsx
      rw [List.mem_cons]
      right
      rw [List.mem_flatMap]
      refine ⟨p, hp, ?_⟩
      unfold segDrawOpsTsx
      rw [if_pos ⟨hle, Int.ofNat_nonneg p.1⟩]
      exact List.mem_cons_self _ _

/-- Claim C8 witness: the amended statement at a concrete one-segment list,
during recording. -/
theorem C8_highlight_amended_witness :
    DrawOp.reveal 0 segText.box ∈ drawFramePlaybackV2 AppState.RECORDING [segText] 0 ∧
    DrawOp.reveal 0 segText.box ∈ drawFramePlaybackTsx AppState.RECORDING [segText] 0 :=
  C8_highlight_amended.2 AppState.RECORDING [segText] 0 (0, segText)
    (by decide) (by decide)

/-- Claim C8 counterexample: in the drawFrame of
src/components/VideoCanvas.tsx, a frame rendered while actively recording
does draw a highlighted border around the segment at the current reveal
index. -/
theorem C8_counterexample :
    DrawOp.highlight 0 ∈ drawFramePlaybackTsx AppState.RECORDING [segText] 0 := by
  decide

theorem clamp1000_nonneg (q : ℚ) : 0 ≤ clamp1000 q := le_max_left 0 _

theorem clamp1000_le (q : ℚ) : clamp1000 q ≤ 1000 :=
  max_le (by norm_num) (min_le_left 1000 q)

theorem clamp1000_mono {a b : ℚ} (h : a ≤ b) : clamp1000 a ≤ clamp1000 b :=
  max_le_max (le_refl 0) (min_le_min (le_refl 1000) h)

theorem clamp1000_lt_of_le {q c : ℚ} (h : q ≤ c - 10) (hc0 : 0 < c) : clamp1000 q < c :=
  max_lt_iff.mpr ⟨hc0, lt_of_le_of_lt (min_le_right 1000 q) (by linarith)⟩

theorem lt_clamp1000_of_ge {q c : ℚ} (h : c + 10 ≤ q) (hc : c < 1000) : c < clamp1000 q :=
  lt_max_iff.mpr (Or.inr (lt_min_iff.mpr ⟨hc, by linarith⟩))

theorem clamp1000_of_mem {q : ℚ} (h0 : 0 ≤ q) (h1 : q ≤ 1000) : clamp1000 q = q := by
  unfold clamp1000
  rw [min_eq_right h1, max_eq_right h0]

/-- Claim C9, amended: every box written by the drag handler has all four
coordinates clamped into `[0, 1000]` and keeps `xmin ≤ xmax`, `ymin ≤ ymax`;
the four resize modes preserve the full strict invariant, but a `MOVE`
against the image boundary can collapse the box to an empty extent, and
`updateSegmentBox` merges the patch without any clamping or ordering check
(see the counterexample). -/
theorem C9_invariant_amended (mode : DragMode) (b : BoundingBox) (dx dy : ℚ)
    (hb : validBox b) :
    (0 ≤ (applyDrag mode b dx dy).xmin ∧ (applyDrag mode b dx dy).xmin ≤ 1000 ∧
     0 ≤ (applyDrag mode b dx dy).ymin ∧ (applyDrag mode b dx dy).ymin ≤ 1000 ∧
     0 ≤ (applyDrag mode b dx dy).xmax ∧ (applyDrag mode b dx dy).xmax ≤ 1000 ∧
     0 ≤ (applyDrag mode b dx dy).ymax ∧ (applyDrag mode b dx dy).ymax ≤ 1000) ∧
    (applyDrag mode b dx dy).xmin ≤ (applyDrag mode b dx dy).xmax ∧
    (applyDrag mode b dx dy).ymin ≤ (applyDrag mode b dx dy).ymax ∧
    (mode ≠ DragMode.MOVE → validBox (applyDrag mode b dx dy)) := by
  obtain ⟨hxx, hyy, hx0, hx1, hy0, hy1⟩ := hb
  have hxmaxpos : 0 < b.xmax := lt_of_le_of_lt hx0 hxx
  have hymaxpos : 0 < b.ymax := lt_of_le_of_lt hy0 hyy
  have hxminlt : b.xmin < 1000 := lt_of_lt_of_le hxx hx1
  have hyminlt : b.ymin < 1000 := lt_of_lt_of_le hyy hy1
  refine ⟨⟨clamp1000_nonneg _, clamp1000_le _, clamp1000_nonneg _, clamp1000_le _,
    clamp1000_nonneg _, clamp1000_le _, clamp1000_nonneg _, clamp1000_le _⟩, ?_⟩
  cases mode with
  | MOVE =>
    refine ⟨?_, ?_, fun hne => absurd rfl hne⟩
    · unfold applyDrag dragSwitch
      dsimp only
      rw [clamp1000_of_mem (clamp1000_nonneg _) (clamp1000_le _),
        clamp1000_of_mem (clamp1000_nonneg _) (clamp1000_le _)]
      exact clamp1000_mono (by linarith)
    · unfold applyDrag dragSwitch
      dsimp only
      rw [clamp1000_of_mem (clamp1000_nonneg _) (clamp1000_le _),
        clamp1000_of_mem (clamp1000_nonneg _) (clamp1000_le _)]
      exact clamp1000_mono (by linarith)
  | RESIZE_TL =>
    have hv : validBox (applyDrag DragMode.RESIZE_TL b dx dy) := by
      unfold applyDrag dragSwitch
      dsimp only
      rw [clamp1000_of_mem (le_of_lt hxmaxpos) hx1,
        clamp1000_of_mem (le_of_lt hymaxpos) hy1]
      exact ⟨clamp1000_lt_of_le (min_le_left _ _) hxmaxpos,
        clamp1000_lt_of_le (min_le_left _ _) hymaxpos,
        clamp1000_nonneg _, hx1, clamp1000_nonneg _, hy1⟩
    exact ⟨le_of_lt hv.1, le_of_lt hv.2.1, fun _ => hv⟩
  | RESIZE_TR =>
    have hv : validBox (applyDrag DragMode.RESIZE_TR b dx dy) := by
      unfold applyDrag dragSwitch
      dsimp only
      rw [clamp1000_of_mem hx0 (le_of_lt hxminlt),
        clamp1000_of_mem (le_of_lt hymaxpos) hy1]
      exact ⟨lt_clamp1000_of_ge (le_max_left _ _) hxminlt,
        clamp1000_lt_of_le (min_le_left _ _) hymaxpos,
        hx0, clamp1000_le _, clamp1000_nonneg _, hy1⟩
    exact ⟨le_of_lt hv.1, le_of_lt hv.2.1, fun _ => hv⟩
  | RESIZE_BL =>
    have hv : validBox (applyDrag DragMode.RESIZE_BL b dx dy) := by
      unfold applyDrag dragSwitch
      dsimp only
      rw [clamp1000_of_mem (le_of_lt hxmaxpos) hx1,
        clamp1000_of_mem hy0 (le_of_lt hyminlt)]
      exact ⟨clamp1000_lt_of_le (min_le_left _ _) hxmaxpos,
        lt_clamp1000_of_ge (le_max_left _ _) hyminlt,
        clamp1000_nonneg _, hx1, hy0, clamp1000_le _⟩
    exact ⟨le_of_lt hv.1, le_of_lt hv.2.1, fun _ => hv⟩
  | RESIZE_BR =>
    have hv : validBox (applyDrag DragMode.RESIZE_BR b dx dy) := by
      unfold applyDrag dragSwitch
      dsimp only
      rw [clamp1000_of_mem hx0 (le_of_lt hxminlt),
        clamp1000_of_mem hy0 (le_of_lt hyminlt)]
      exact ⟨lt_clamp1000_of_ge (le_max_left _ _) hxminlt,
        lt_clamp1000_of_ge (le_max_left _ _) hyminlt,
        hx0, clamp1000_le _, hy0, clamp1000_le _⟩
    exact ⟨le_of_lt hv.1, le_of_lt hv.2.1, fun _ => hv⟩

/-- Claim C9 witness: the amended statement at a concrete resize drag on a
valid box. -/
theorem C9_invariant_amended_witness :
    validBox (applyDrag DragMode.RESIZE_BR boxEdited 5 5) :=
  (C9_invariant_amended DragMode.RESIZE_BR boxEdited 5 5 (by decide)).2.2.2 (by decide)

/-- Claim C9 counterexample: `updateSegmentBox` (the per-coordinate box
editor) is an editing operation that writes a box, yet starting from a valid
box the in-range single-coordinate edit `xmin := 950` produces a box with
`xmin > xmax`, so the invariant is not preserved by every editing
operation. -/
theorem C9_counterexample :
    validBox boxEdited ∧ (0 : ℚ) ≤ 950 ∧ (950 : ℚ) ≤ 1000 ∧
    mergeBox boxEdited patchXmin950 = ⟨950, 100, 900, 900⟩ ∧
    ¬ validBox (mergeBox boxEdited patchXmin950) := by
  refine ⟨by decide, by decide, by decide, rfl, ?_⟩
  intro hv
  exact absurd hv.1 (by decide)

theorem playFrom_eq_range' (cont : ℕ → Bool) :
    ∀ fuel i, playFrom cont fuel i = List.range' i (stopFrom cont fuel i) := by
  intro fuel
  induction fuel with
  | zero => intro i; rfl
  | succ fuel ih =>
    intro i
    unfold playFrom stopFrom
    cases hc : cont i
    · simp only [Bool.false_eq_true, if_false]
      rfl
    · simp only [if_true]
      rw [ih (i + 1), List.range'_succ]

theorem stopFrom_le (cont : ℕ → Bool) : ∀ fuel i, stopFrom cont fuel i ≤ fuel := by
  intro fuel
  induction fuel with
  | zero => intro i; exact le_refl 0
  | succ fuel ih =>
    intro i
    unfold stopFrom
    cases hc : cont i
    · simp
    · simpa using ih (i + 1)

theorem stopFrom_cont_false (cont : ℕ → Bool) :
    ∀ fuel i, stopFrom cont fuel i < fuel → cont (i + stopFrom cont fuel i) = false := by
  intro fuel
  induction fuel with
  | zero => intro i h; omega
  | succ fuel ih =>
    intro i h
    unfold stopFrom at h ⊢
    cases hc : cont i
    · rw [if_neg (by simp)]
      simpa using hc
    · rw [hc] at h
      rw [if_pos rfl] at h ⊢
      have hlt : stopFrom cont fuel (i + 1) < fuel := by omega
      have := ih (i + 1) hlt
      rw [show i + (stopFrom cont fuel (i + 1) + 1) = i + 1 + stopFrom cont fuel (i + 1) by omega]
      exact this

theorem stopFrom_all (cont : ℕ → Bool) :
    ∀ fuel i, (∀ j < fuel, cont (i + j) = true) → stopFrom cont fuel i = fuel := by
  intro fuel
  induction fuel with
  | zero => intro i _; rfl
  | succ fuel ih =>
    intro i h
    unfold stopFrom
    rw [show cont i = true by simpa using h 0 (Nat.succ_pos fuel)]
    simp only [if_true]
    rw [ih (i + 1) (fun j hj => by
      rw [show i + 1 + j = i + (j + 1) by omega]
      exact h (j + 1) (by omega))]

/-- Claim C4: a playback run over a segment list sets the reveal index to
`0, 1, …, stop-1` — a strictly increasing prefix of `0 … n-1` with no
repeats or skips — where the run stops early only when the cancellation flag
is observed false at the top of an iteration, and covers every segment when
the flag stays true. -/
theorem C4_playback_order (cont : ℕ → Bool) (segs : List MemeSegment) :
    playIndices cont segs.length = List.range (stopIndex cont segs.length) ∧
    stopIndex cont segs.length ≤ segs.length ∧
    List.Chain' (· < ·) (playIndices cont segs.length) ∧
    (stopIndex cont segs.length < segs.length → cont (stopIndex cont segs.length) = false) ∧
    ((∀ j < segs.length, cont j = true) → stopIndex cont segs.length = segs.length) := by
  have hplay : playIndices cont segs.length = List.range (stopIndex cont segs.length) := by
    unfold playIndices stopIndex
    rw [playFrom_eq_range', List.range_eq_range']
  refine ⟨hplay, stopFrom_le cont segs.length 0, ?_, ?_, ?_⟩
  · rw [hplay]
    exact (List.pairwise_lt_range _).chain'
  · intro hlt
    have := stopFrom_cont_false cont segs.length 0 hlt
    rwa [Nat.zero_add] at this
  · intro hall
    exact stopFrom_all cont segs.length 0 (fun j hj => by rw [Nat.zero_add]; exact hall j hj)

/-- Claim C4 witness: with the cancellation flag always true, a three-segment
run completes all three iterations. -/
theorem C4_playback_order_witness :
    stopIndex (fun _ => true) (List.replicate 3 segText).length = 3 :=
  (C4_playback_order (fun _ => true) (List.replicate 3 segText)).2.2.2.2
    (fun _ _ => rfl)

theorem audioDurationOf_attached_fail (isRecording : Bool) (seg : MemeSegment) (o : SegOutcome)
    (ha : seg.audioBase64.isSome = true) (hd : o.decodeOk = false) :
    audioDurationOf isRecording seg o = 0 := by
  obtain ⟨a, hae⟩ := Option.isSome_iff_exists.mp ha
  unfold audioDurationOf
  rw [hae, hd]
  simp

theorem audioDurationOf_jit_fail (seg : MemeSegment) (o : SegOutcome)
    (ha : seg.audioBase64 = none) (ht : seg.text ≠ "")
    (hj : o.jitAudio = "" ∨ o.jitDecodeOk = false) :
    audioDurationOf true seg o = 0 := by
  unfold audioDurationOf
  rw [ha]
  simp only [if_pos ht, eq_self_iff_true, if_true]
  rcases hj with hj | hj
  · rw [if_neg (fun hcontra => hcontra.1 hj)]
  · rw [if_neg (fun hcontra => by rw [hj] at hcontra; exact absurd hcontra.2 (by simp))]

theorem segmentWaitMs_silent_fallback (seg : MemeSegment) (o : SegOutcome)
    (h0 : audioDurationOf true seg o = 0) (hdur : 0 ≤ seg.duration) :
    segmentWaitMs true seg o = seg.duration * 1000 := by
  unfold segmentWaitMs
  rw [h0]
  simp only [lt_irrefl, if_false, Bool.true_eq_false]
  by_cases hq : seg.duration = 0
  · rw [jsOr0, if_pos hq, hq]
    norm_num
  · rw [jsOr0, if_neg hq, max_eq_right hdur]

theorem playLogWith_map_fst (cont : ℕ → Bool) (wait : ℕ → MemeSegment → ℚ) :
    ∀ (segs : List MemeSegment) (i : ℕ), (∀ j < segs.length, cont (i + j) = true) →
      (playLogWith cont wait segs i).map Prod.fst = List.range' i segs.length := by
  intro segs
  induction segs with
  | nil => intro i _; rfl
  | cons seg rest ih =>
    intro i h
    unfold playLogWith
    rw [show cont i = true by simpa using h 0 (Nat.succ_pos rest.length)]
    simp only [if_true, List.map_cons]
    rw [ih (i + 1) (fun j hj => by
      rw [show i + 1 + j = i + (j + 1) by omega]
      exact h (j + 1) (by simpa using Nat.succ_lt_succ hj))]
    rw [List.length_cons, List.range'_succ]

/-- Claim C5, amended, scoped to each cited playSequence: in the
src/unnamed/part_004 loop, a recording-mode segment whose attached audio
fails to decode, or whose just-in-time narration fetch or decode fails,
waits exactly its nominal duration (in milliseconds, `duration * 1000`)
before the inter-segment pause, while in preview (non-recording) mode a
failed attached-audio segment waits a fixed 500 ms instead; in the
src/components/VideoCanvas.tsx loop, a segment whose attached audio fails
to decode waits a fixed 1000 ms — in preview and recording alike — never
its nominal duration; in both loops the run completes the remaining
segments whenever the cancellation flag stays true. -/
theorem C5_failure_wait_amended :
    (∀ (seg : MemeSegment) (o : SegOutcome), seg.audioBase64.isSome = true →
      o.decodeOk = false → 0 ≤ seg.duration →
      segmentWaitMs true seg o = seg.duration * 1000) ∧
    (∀ (seg : MemeSegment) (o : SegOutcome), seg.audioBase64 = none → seg.text ≠ "" →
      (o.jitAudio = "" ∨ o.jitDecodeOk = false) → 0 ≤ seg.duration →
      segmentWaitMs true seg o = seg.duration * 1000) ∧
    (∀ (seg : MemeSegment) (o : SegOutcome), seg.audioBase64.isSome = true →
      o.decodeOk = false → segmentWaitMs false seg o = 500) ∧
    (∀ (isRecording : Bool) (seg : MemeSegment) (o : TsxSegOutcome),
      seg.audioBase64.isSome = true → o.decodeOk = false →
      segmentWaitMsTsx isRecording seg o = 1000) ∧
    (∀ (cont : ℕ → Bool) (isRecording : Bool) (out : ℕ → SegOutcome)
      (segs : List MemeSegment), (∀ j < segs.length, cont j = true) →
      (playLog cont isRecording out segs 0).map Prod.fst = List.range segs.length) ∧
    (∀ (cont : ℕ → Bool) (isRecording : Bool) (out : ℕ → TsxSegOutcome)
      (segs : List MemeSegment), (∀ j < segs.length, cont j = true) →
      (playLogTsx cont isRecording out segs 0).map Prod.fst = List.range segs.length) := by
  refine ⟨?_, ?_, ?_, ?_, ?_, ?_⟩
  · intro seg o ha hd hdur
    exact segmentWaitMs_silent_fallback seg o (audioDurationOf_attached_fail true seg o ha hd) hdur
  · intro seg o ha ht hj hdur
    exact segmentWaitMs_silent_fallback seg o (audioDurationOf_jit_fail seg o ha ht hj) hdur
  · intro seg o ha hd
    unfold segmentWaitMs
    rw [audioDurationOf_attached_fail false seg o ha hd]
    simp
  · intro isRecording seg o ha hd
    obtain ⟨a, hae⟩ := Option.isSome_iff_exists.mp ha
    unfold segmentWaitMsTsx
    rw [hae, hd]
    simp
  · intro cont isRecording out segs h
    unfold playLog
    rw [playLogWith_map_fst cont _ segs 0 (fun j hj => by rw [Nat.zero_add]; exact h j hj),
      List.range_eq_range']
  · intro cont isRecording out segs h
    unfold playLogTsx
    rw [playLogWith_map_fst cont _ segs 0 (fun j hj => by rw [Nat.zero_add]; exact h j hj),
      List.range_eq_range']

/-- Claim C5 witness: the amended statement at a concrete segment with
failing attached audio and duration 2 s — the part_004 recording wait is
2000 ms, and the VideoCanvas.tsx recording wait is the fixed 1000 ms. -/
theorem C5_failure_wait_amended_witness :
    segmentWaitMs true segAudioFail outcomeDecodeFail = segAudioFail.duration * 1000 ∧
    segmentWaitMsTsx true segAudioFail tsxOutcomeDecodeFail = 1000 :=
  ⟨C5_failure_wait_amended.1 segAudioFail outcomeDecodeFail rfl rfl
    (by show (0 : ℚ) ≤ 2; norm_num),
   C5_failure_wait_amended.2.2.2.1 true segAudioFail tsxOutcomeDecodeFail rfl rfl⟩

/-- Claim C5 counterexample: in preview (non-recording) playback a segment
whose attached audio fails to decode waits the fixed 500 ms, not its nominal
duration of 2 s (2000 ms), so the claim as stated is false. -/
theorem C5_counterexample :
    segmentWaitMs false segAudioFail outcomeDecodeFail = 500 ∧
    segAudioFail.duration * 1000 = 2000 ∧
    segmentWaitMs false segAudioFail outcomeDecodeFail ≠ segAudioFail.duration * 1000 := by
  have h1 : segmentWaitMs false segAudioFail outcomeDecodeFail = 500 := by
    unfold segmentWaitMs
    rw [audioDurationOf_attached_fail false segAudioFail outcomeDecodeFail rfl rfl]
    simp
  have h2 : segAudioFail.duration * 1000 = 2000 := by
    show (2 : ℚ) * 1000 = 2000
    norm_num
  refine ⟨h1, h2, ?_⟩
  rw [h1, h2]
  norm_num

theorem fetchFreeTTSBody_ok {env : TTSEnv} {s : String}
    (h : fetchFreeTTSBody env = Except.ok s) :
    env.fetchThrows = false ∧ env.respOk = true ∧ 100 ≤ env.blobSize ∧
    env.b64Result = some s := by
  unfold fetchFreeTTSBody at h
  split_ifs at h with hf hr hs
  cases hb : env.b64Result with
  | none => rw [hb] at h; exact absurd h (by simp)
  | some s2 =>
    rw [hb] at h
    simp only [Except.ok.injEq] at h
    refine ⟨by simpa using hf, ?_, by omega, by rw [h]⟩
    cases hro : env.respOk
    · exact absurd hro hr
    · rfl

/-- Claim C10: `fetchFreeTTS` always resolves (it is a total function into
strings): it returns the empty string when the input is empty, when the
sanitized text is empty, and when the fetch, status check, size check or
base64 conversion fails; a non-empty result implies every step succeeded
and equals the converted base64 payload. -/
theorem C10_fetch_never_rejects (env : TTSEnv) (text : String) :
    (text = "" → fetchFreeTTS env text = "") ∧
    (cleanTextForTTS text = "" → fetchFreeTTS env text = "") ∧
    (env.fetchThrows = true → fetchFreeTTS env text = "") ∧
    (env.respOk = false → fetchFreeTTS env text = "") ∧
    (env.blobSize < 100 → fetchFreeTTS env text = "") ∧
    (env.b64Result = none → fetchFreeTTS env text = "") ∧
    (fetchFreeTTS env text ≠ "" →
      text ≠ "" ∧ cleanTextForTTS text ≠ "" ∧ env.fetchThrows = false ∧
      env.respOk = true ∧ 100 ≤ env.blobSize ∧
      env.b64Result = some (fetchFreeTTS env text)) := by
  unfold fetchFreeTTS
  split_ifs with h1 h2
  · exact ⟨fun _ => rfl, fun _ => rfl, fun _ => rfl, fun _ => rfl, fun _ => rfl, fun _ => rfl,
      fun hne => absurd rfl hne⟩
  · exact ⟨fun _ => rfl, fun _ => rfl, fun _ => rfl, fun _ => rfl, fun _ => rfl, fun _ => rfl,
      fun hne => absurd rfl hne⟩
  · cases hbody : fetchFreeTTSBody env with
    | error e =>
      exact ⟨fun h => absurd h h1, fun _ => rfl, fun _ => rfl, fun _ => rfl, fun _ => rfl,
        fun _ => rfl, fun hne => absurd rfl hne⟩
    | ok s =>
      obtain ⟨hf, hr, hs, hb⟩ := fetchFreeTTSBody_ok hbody
      refine ⟨fun h => absurd h h1, fun h => absurd (by rw [h]; rfl) h2,
        fun h => absurd hf (by rw [h]; simp),
        fun h => absurd hr (by rw [h]; simp),
        fun h => absurd hs (by omega),
        fun h => absurd hb (by rw [h]; simp),
        fun _ => ⟨h1, fun h => h2 (by rw [h]; rfl), hf, hr, hs, hb⟩⟩

/-- Claim C10 witness: with a throwing fetch and non-empty input the result
is the empty string. -/
theorem C10_fetch_never_rejects_witness :
    fetchFreeTTS envFetchThrows ("hello world") = "" :=
  (C10_fetch_never_rejects envFetchThrows ("hello world")).2.2.1 rfl

end MemeReveal
